import Mathlib

/-!
Shallow embedding of the LeadSalecrm email-sync CRM server.

The definitions below are translated from the TypeScript sources:
* `src/server/routes.ts` — the HTTP handlers (`POST /api/emails/sync`,
  `POST /api/leads/:id/send-email`, `POST /api/import/file`);
* `src/unnamed/part_001` — the Microsoft Graph adapter (`sendEmail`,
  `fetchNewEmails`, `getInReplyToHeader`) and `DatabaseStorage`;
* `src/server/sendgrid.ts` — the SendGrid adapter;
* `src/client/src/lib/notificationStore.ts` — the client unread-count store.

Database rows are lists in insertion order; drizzle's `eq` on a text column
is exact string equality, and a `select` without `orderBy` picks the first
row, which we model as `List.find?`.  JavaScript truthiness on strings
(`!s` is true for both `undefined` and `""`) is modelled by `jsTruthy` /
`jsOr` / `jsOrNull`.  External I/O (Graph calls, SendGrid calls) is
modelled by environment records carrying the outcome of each remote call.
-/

/-- JavaScript truthiness of an optional string: `undefined`, `null` and
`""` are falsy, every other string is truthy. -/
def jsTruthy : Option String → Bool
  | none => false
  | some s => s ≠ ""

/-- JavaScript `x || d` for an optional string `x` and default `d`. -/
def jsOr (x : Option String) (d : String) : String :=
  match x with
  | none => d
  | some s => if s = "" then d else s

/-- JavaScript `x || null` for an optional string: collapses `""` to `null`. -/
def jsOrNull (x : Option String) : Option String :=
  match x with
  | none => none
  | some s => if s = "" then none else some s

/-- A stored lead row (table `leads`). -/
structure LeadRow where
  id : String
  clientName : String
  email : String
  leadDetails : String
  status : String
  companyId : Option String := none
  deriving Repr, DecidableEq

/-- A stored email row (table `emails`). -/
structure EmailRow where
  id : Nat
  leadId : String
  subject : String
  body : String
  direction : String
  messageId : Option String
  conversationId : Option String
  fromEmail : Option String
  toEmail : Option String
  inReplyTo : Option String
  deriving Repr, DecidableEq

/-- The value parsed by `insertLeadSchema` before insertion. -/
structure InsertLead where
  clientName : String
  email : String
  leadDetails : String
  status : String
  deriving Repr, DecidableEq

/-- The value parsed by `insertEmailSchema` before insertion. -/
structure InsertEmail where
  leadId : String
  subject : String
  body : String
  direction : String
  messageId : Option String
  conversationId : Option String
  fromEmail : Option String
  toEmail : Option String
  inReplyTo : Option String
  deriving Repr, DecidableEq

/-- The relational store: `leads` and `emails` tables in insertion order,
with counters standing in for the id generator. -/
structure DB where
  leads : List LeadRow
  emails : List EmailRow
  nextEmailId : Nat := 0
  nextLeadId : Nat := 0
  deriving Repr, DecidableEq

/-- `DatabaseStorage.getLead`: select the lead with the given id. -/
def getLead (id : String) (db : DB) : Option LeadRow :=
  db.leads.find? (fun l => l.id = id)

/-- `DatabaseStorage.getLeadByEmail`: exact equality on the `email`
column, first matching row. -/
def getLeadByEmail (email : String) (db : DB) : Option LeadRow :=
  db.leads.find? (fun l => l.email = email)

/-- `DatabaseStorage.getEmailByMessageId`: exact equality on the
`messageId` column; SQL `NULL = x` never matches, so only rows whose
`messageId` is the given non-null value are found. -/
def getEmailByMessageId (messageId : String) (db : DB) : Option EmailRow :=
  db.emails.find? (fun e => e.messageId = some messageId)

/-- `DatabaseStorage.createEmail`: insert one row, returning it. -/
def createEmail (db : DB) (e : InsertEmail) : DB × EmailRow :=
  let row : EmailRow :=
    { id := db.nextEmailId, leadId := e.leadId, subject := e.subject,
      body := e.body, direction := e.direction, messageId := e.messageId,
      conversationId := e.conversationId, fromEmail := e.fromEmail,
      toEmail := e.toEmail, inReplyTo := e.inReplyTo }
  ({ db with emails := db.emails ++ [row], nextEmailId := db.nextEmailId + 1 }, row)

/-- `DatabaseStorage.updateLeadStatus`: set `status` on every row whose
`id` matches (an SQL `UPDATE ... WHERE id = ?`). -/
def updateLeadStatus (id status : String) (db : DB) : DB :=
  { db with leads := db.leads.map (fun l => if l.id = id then { l with status := status } else l) }

/-- `DatabaseStorage.createLeads`: bulk insert; returns `[]` untouched on
an empty batch, otherwise inserts every row and returns them. -/
def createLeads (db : DB) (batch : List InsertLead) : DB × List LeadRow :=
  if batch.isEmpty then (db, [])
  else
    let rows := batch.enum.map (fun p =>
      ({ id := toString (db.nextLeadId + p.1), clientName := p.2.clientName,
         email := p.2.email, leadDetails := p.2.leadDetails,
         status := p.2.status } : LeadRow))
    ({ db with leads := db.leads ++ rows, nextLeadId := db.nextLeadId + rows.length }, rows)

/-- A raw Microsoft Graph inbox message as consumed by the sync handler:
`id`, `conversationId`, `from?.emailAddress?.address`, `subject`,
`body?.content`, `receivedDateTime`, `internetMessageHeaders`. -/
structure InboundMsg where
  id : String
  conversationId : Option String
  fromAddress : Option String
  subject : Option String
  bodyContent : Option String
  receivedDateTime : Nat
  internetMessageHeaders : Option (List (String × String))
  deriving Repr, DecidableEq

/-- `getInReplyToHeader` (outlook adapter): find the header whose name
lower-cases to `in-reply-to` and return its value, `null` if the header
list is absent, the header is missing, or its value is falsy. -/
def getInReplyToHeader (m : InboundMsg) : Option String :=
  match m.internetMessageHeaders with
  | none => none
  | some hs =>
    match hs.find? (fun h => h.1.toLower = "in-reply-to") with
    | none => none
    | some h => jsOrNull (some h.2)

/-- Newest-first order on inbox messages: `a` precedes `b` when `a` was
received no earlier than `b` (the Graph query `orderby receivedDateTime
desc`). -/
def recvGE (a b : InboundMsg) : Prop := b.receivedDateTime ≤ a.receivedDateTime

instance : DecidableRel recvGE := fun a b =>
  inferInstanceAs (Decidable (b.receivedDateTime ≤ a.receivedDateTime))

instance : IsTotal InboundMsg recvGE :=
  ⟨fun a b => by
    unfold recvGE
    exact (Nat.le_total b.receivedDateTime a.receivedDateTime)⟩

instance : IsTrans InboundMsg recvGE :=
  ⟨fun _ _ _ h1 h2 => Nat.le_trans h2 h1⟩

/-- `fetchNewEmails` (outlook adapter): with no Graph client or no
configured mailbox address, return `[]`; otherwise return the inbox
filtered to `receivedDateTime gt since` (when a watermark is given),
ordered by `receivedDateTime desc`, limited to the top 50. -/
def fetchNewEmails (clientOk : Bool) (fromEmail : Option String)
    (inbox : List InboundMsg) (since : Option Nat) : List InboundMsg :=
  if clientOk ∧ fromEmail.isSome then
    let windowed :=
      match since with
      | some t => inbox.filter (fun m => t < m.receivedDateTime)
      | none => inbox
    (List.insertionSort recvGE windowed).take 50
  else []

/-- The result shape returned by the Microsoft Graph `sendEmail`. -/
structure MsSendResult where
  success : Bool
  messageId : Option String
  conversationId : Option String
  deriving Repr, DecidableEq

/-- A message payload handed to the Graph `sendMail` endpoint, with its
`internetMessageHeaders`. -/
structure MailMessage where
  subject : String
  body : String
  toAddress : String
  headers : List (String × String)
  deriving Repr, DecidableEq

/-- Outcome of every remote Microsoft Graph interaction the `sendEmail`
function performs, fixed up front for one call:
* `clientOk` — whether `getGraphClient()` yields a client (credentials
  present and a token was acquired);
* `fromAddress` — `process.env.EMAIL_FROM_ADDRESS`;
* `createReplyOutcome` — when the provider-native reply path
  (get original / `createReply` / patch / send) succeeds, the reply's id
  and its effective conversation id (`reply.conversationId ||
  originalMessage.conversationId`); `none` when any of those calls throws;
* `sendMailOk` — whether the plain `sendMail` call succeeds;
* `sentItemsLatest` — the id and conversation id of the most recent
  message in Sent Items, when that follow-up lookup returns one. -/
structure GraphEnv where
  clientOk : Bool
  fromAddress : Option String
  createReplyOutcome : Option (String × Option String)
  sendMailOk : Bool
  sentItemsLatest : Option (String × Option String)
  deriving Repr, DecidableEq

/-- The `sendMail` tail of the Graph `sendEmail`: post the message, then
try to read the freshly saved message's id and conversation id from Sent
Items (absent when that lookup fails or returns nothing).  A failed
`sendMail` is thrown to the caller. -/
def postSendMail (env : GraphEnv) (msg : MailMessage) :
    Except String (MsSendResult × Option MailMessage) :=
  if env.sendMailOk then
    match env.sentItemsLatest with
    | some (mid, cid) =>
      .ok ({ success := true, messageId := some mid, conversationId := cid }, some msg)
    | none =>
      .ok ({ success := true, messageId := none, conversationId := none }, some msg)
  else .error "Failed to send email"

/-- `sendEmail` (outlook adapter).  Unconfigured Graph degrades to a
logged no-op success with no message id.  With `inReplyTo` set the
adapter first attempts provider-native reply; if that throws it falls
back to `sendMail` with manually added `In-Reply-To` / `References`
headers wrapping the original id in angle brackets.  The second
component of the result is the payload that went through `sendMail`
(`none` when no `sendMail` call happened). -/
def sendEmailMs (env : GraphEnv) (toAddr subject body : String)
    (fromEmail : Option String) (inReplyTo : Option String) :
    Except String (MsSendResult × Option MailMessage) :=
  if ¬env.clientOk then
    .ok ({ success := true, messageId := none, conversationId := none }, none)
  else
    match fromEmail.orElse (fun _ => env.fromAddress) with
    | none => .error "Failed to send email: EMAIL_FROM_ADDRESS must be set when using app-only access"
    | some _ =>
      let baseMsg : MailMessage :=
        { subject := subject, body := body, toAddress := toAddr, headers := [] }
      match inReplyTo with
      | none => postSendMail env baseMsg
      | some orig =>
        match env.createReplyOutcome with
        | some (rid, cid) =>
          .ok ({ success := true, messageId := some rid, conversationId := cid }, none)
        | none =>
          postSendMail env
            { baseMsg with
              headers := [("In-Reply-To", "<" ++ orig ++ ">"),
                          ("References", "<" ++ orig ++ ">")] }

/-- The result shape returned by the SendGrid send functions. -/
structure SgSendResult where
  success : Bool
  messageId : Option String
  error : Option String
  deriving Repr, DecidableEq

/-- Environment of one `sendEmailViaSendGrid` call: the normalized
`SENDGRID_API_KEY` and `SENDGRID_FROM_EMAIL` values, the outcome of the
`sgMail.send` call (on success, the `x-message-id` response header), and
the current clock used for the generated fallback id. -/
structure SgEnv where
  apiKey : String
  fromEmail : String
  apiResult : Except String (Option String)
  now : Nat
  deriving Repr

/-- `sendEmailViaSendGrid` (sendgrid adapter).  A missing API key or
sender address throws inside the `try`, and the `catch` turns every
throw into a `success := false` result carrying the error message. -/
def sendEmailViaSendGrid (env : SgEnv) : SgSendResult :=
  if env.apiKey = "" then
    { success := false, messageId := none,
      error := some "SendGrid API key is not configured. Please set SENDGRID_API_KEY in .env file" }
  else if env.fromEmail = "" then
    { success := false, messageId := none,
      error := some "SendGrid sender email is not configured. Please set SENDGRID_FROM_EMAIL in .env file" }
  else
    match env.apiResult with
    | .ok header =>
      { success := true,
        messageId := some (jsOr header ("sendgrid-" ++ toString env.now)),
        error := none }
    | .error e => { success := false, messageId := none, error := some e }

/-- Accumulator of the `POST /api/emails/sync` loop: the store plus the
`matchedCount` and `savedCount` counters. -/
structure SyncAcc where
  db : DB
  matched : Nat
  saved : Nat
  deriving Repr, DecidableEq

/-- One iteration of the sync loop (`for (const email of newEmails)`):
skip on a falsy sender address, skip when no lead has exactly that email,
count a match, skip when an Email with this provider message id already
exists, otherwise persist the received Email and set the lead's status to
`Replied`.  `toAddr` is `process.env.EMAIL_FROM_ADDRESS || null`. -/
def processMessage (toAddr : Option String) (acc : SyncAcc) (m : InboundMsg) : SyncAcc :=
  match jsOrNull m.fromAddress with
  | none => acc
  | some fromAddr =>
    match getLeadByEmail fromAddr acc.db with
    | none => acc
    | some lead =>
      match getEmailByMessageId m.id acc.db with
      | some _ => { acc with matched := acc.matched + 1 }
      | none =>
        let data : InsertEmail :=
          { leadId := lead.id,
            subject := jsOr m.subject "(No Subject)",
            body := jsOr m.bodyContent "",
            direction := "received",
            messageId := some m.id,
            conversationId := jsOrNull m.conversationId,
            fromEmail := some fromAddr,
            toEmail := toAddr,
            inReplyTo := getInReplyToHeader m }
        let db1 := (createEmail acc.db data).1
        let db2 := updateLeadStatus lead.id "Replied" db1
        { db := db2, matched := acc.matched + 1, saved := acc.saved + 1 }

/-- `POST /api/emails/sync`: fetch the inbox window and run the loop.
Returns the final accumulator plus `checked`, the number of fetched
messages. -/
def syncEmails (toAddr : Option String) (db : DB) (clientOk : Bool)
    (mailbox : Option String) (inbox : List InboundMsg) (since : Option Nat) :
    SyncAcc × Nat :=
  let msgs := fetchNewEmails clientOk mailbox inbox since
  (msgs.foldl (processMessage toAddr) ⟨db, 0, 0⟩, msgs.length)

/-- The adapter outcome consumed by the send-email route: the fields of
the `result` object the handler reads (`success`, `messageId`,
`conversationId`). -/
structure AdapterResult where
  success : Bool
  messageId : Option String
  conversationId : Option String
  deriving Repr, DecidableEq

/-- The HTTP response of `POST /api/leads/:id/send-email`. -/
inductive SendEmailResp where
  | notFound
  | badRequest (message : String)
  | serverError (message : String)
  | ok (email : EmailRow) (provider : String)
  deriving Repr, DecidableEq

/-- `POST /api/leads/:id/send-email`: look up the lead (404 when absent),
require truthy subject and body (400), run the configured provider's
send (modelled by `sendResult`; a thrown error or, on the SendGrid path,
a `success := false` result becomes a 500 with nothing persisted), then
persist one `sent` Email, set the lead's status to `Contacted`, and
return the created Email together with the provider. -/
def sendEmailRoute (db : DB) (leadId subject body provider : String)
    (sendResult : Except String AdapterResult) (senderAddr : Option String) :
    DB × SendEmailResp :=
  match getLead leadId db with
  | none => (db, .notFound)
  | some lead =>
    if ¬(jsTruthy (some subject) ∧ jsTruthy (some body)) then
      (db, .badRequest "Subject and body are required")
    else
      match sendResult with
      | .error e => (db, .serverError e)
      | .ok r =>
        if provider = "sendgrid" ∧ ¬r.success then
          (db, .serverError "Failed to send email via SendGrid")
        else
          let data : InsertEmail :=
            { leadId := lead.id, subject := subject, body := body,
              direction := "sent",
              messageId := jsOrNull r.messageId,
              conversationId := jsOrNull r.conversationId,
              fromEmail := senderAddr,
              toEmail := some lead.email, inReplyTo := none }
          let (db1, email) := createEmail db data
          let db2 := updateLeadStatus lead.id "Contacted" db1
          (db2, .ok email provider)

/-- One spreadsheet row after column extraction in the import handler:
the first present value of the accepted column names for client name,
email, and lead details (`none` when every accepted column is absent). -/
structure Row where
  clientName : Option String
  email : Option String
  leadDetails : Option String
  deriving Repr, DecidableEq

/-- A row validates when both its client name and its email are truthy
(present and non-empty). -/
def rowValid (r : Row) : Prop := jsTruthy r.clientName ∧ jsTruthy r.email

instance : DecidablePred rowValid := fun r =>
  inferInstanceAs (Decidable (jsTruthy r.clientName ∧ jsTruthy r.email))

/-- The per-row body of the import handler's `data.map`: throw when
client name or email is missing, otherwise build the lead record with
trimmed fields and status `New`. -/
def parseRow (r : Row) : Except String InsertLead :=
  if rowValid r then
    .ok { clientName := (jsOr r.clientName "").trim,
          email := (jsOr r.email "").trim,
          leadDetails := (jsOr r.leadDetails "").trim,
          status := "New" }
  else .error "Each row must have Client Name and Email columns"

/-- `data.map(...)` with a throwing body: rows are parsed left to right
and the first invalid row aborts the whole map. -/
def parseRows : List Row → Except String (List InsertLead)
  | [] => .ok []
  | r :: rs =>
    match parseRow r with
    | .error e => .error e
    | .ok l =>
      match parseRows rs with
      | .error e => .error e
      | .ok ls => .ok (l :: ls)

/-- The HTTP response of `POST /api/import/file`. -/
inductive ImportResp where
  | badRequest (message : String)
  | ok (count : Nat)
  deriving Repr, DecidableEq

/-- `POST /api/import/file`: map every spreadsheet row to a lead record
(the first bad row throws, reaching the catch before any storage call),
then bulk insert the validated batch and report the created count. -/
def importFileRoute (db : DB) (rows : List Row) : DB × ImportResp :=
  match parseRows rows with
  | .error e => (db, .badRequest e)
  | .ok batch =>
    let (db2, created) := createLeads db batch
    (db2, .ok created.length)

/-- The client notification store's state: the global unread total and
the per-lead unread counts (a JavaScript object, one entry per key). -/
structure NotifState where
  unreadTotal : Int
  perLeadUnread : List (String × Nat)
  deriving Repr, DecidableEq

/-- Value at a key of the per-lead record (`state.perLeadUnread[leadId]
|| 0`). -/
def getCount (leadId : String) (rec : List (String × Nat)) : Nat :=
  match rec.find? (fun p => p.1 = leadId) with
  | none => 0
  | some p => p.2

/-- Assignment `rec[leadId] = v` on a JavaScript object: replace the
entry when the key is present, append it otherwise. -/
def setCount (leadId : String) (v : Nat) : List (String × Nat) → List (String × Nat)
  | [] => [(leadId, v)]
  | p :: ps => if p.1 = leadId then (leadId, v) :: ps else p :: setCount leadId v ps

/-- `delete rec[leadId]` on a JavaScript object. -/
def deleteCount (leadId : String) (rec : List (String × Nat)) : List (String × Nat) :=
  rec.filter (fun p => p.1 ≠ leadId)

/-- The empty store state. -/
def notifInit : NotifState := { unreadTotal := 0, perLeadUnread := [] }

/-- `notificationStore.increment(leadId)`. -/
def increment (leadId : String) (s : NotifState) : NotifState :=
  { unreadTotal := s.unreadTotal + 1,
    perLeadUnread := setCount leadId (getCount leadId s.perLeadUnread + 1) s.perLeadUnread }

/-- `notificationStore.clearLead(leadId)`: subtract the lead's count
from the total (clamped at zero) when it is positive, then delete the
key. -/
def clearLead (leadId : String) (s : NotifState) : NotifState :=
  let count := getCount leadId s.perLeadUnread
  { unreadTotal := if 0 < count then max 0 (s.unreadTotal - count) else s.unreadTotal,
    perLeadUnread := deleteCount leadId s.perLeadUnread }

/-- `notificationStore.reset()`. -/
def reset (_s : NotifState) : NotifState := notifInit

/-- A store operation issued by the client. -/
inductive NotifOp where
  | increment (leadId : String)
  | clearLead (leadId : String)
  | reset
  deriving Repr, DecidableEq

/-- Apply one operation. -/
def applyOp (s : NotifState) : NotifOp → NotifState
  | .increment l => increment l s
  | .clearLead l => clearLead l s
  | .reset => reset s

/-- Run a sequence of operations from the empty state. -/
def runOps (ops : List NotifOp) : NotifState :=
  ops.foldl applyOp notifInit

/-- Sum of the per-lead unread counts. -/
def sumCounts (rec : List (String × Nat)) : Int :=
  (rec.map (fun p => (p.2 : Int))).sum

/-! ### Helper lemmas about the reconciliation engine -/

/-- The identity-relevant projection of a lead row: its id and email.
The sync loop reads nothing else from a matched lead. -/
def leadKey (l : LeadRow) : String × String := (l.id, l.email)

lemma updateLeadStatus_leadKey (i s : String) (db : DB) :
    (updateLeadStatus i s db).leads.map leadKey = db.leads.map leadKey := by
  simp only [updateLeadStatus, List.map_map]
  apply List.map_congr_left
  intro l _
  by_cases h : l.id = i <;> simp [leadKey, Function.comp, h]

lemma createEmail_leads (db : DB) (e : InsertEmail) :
    (createEmail db e).1.leads = db.leads := rfl

lemma updateLeadStatus_emails (i s : String) (db : DB) :
    (updateLeadStatus i s db).emails = db.emails := rfl

lemma getEmailByMessageId_updateLeadStatus (i s : String) (db : DB) (mid : String) :
    getEmailByMessageId mid (updateLeadStatus i s db) = getEmailByMessageId mid db := rfl

lemma getEmailByMessageId_createEmail (db : DB) (e : InsertEmail) (mid : String)
    (h : e.messageId = some mid) :
    (getEmailByMessageId mid (createEmail db e).1).isSome = true := by
  rw [getEmailByMessageId, List.find?_isSome]
  refine ⟨(createEmail db e).2, ?_, ?_⟩
  · simp [createEmail]
  · simp [createEmail, h]

lemma find?_email_map_leadKey (a : String) :
    ∀ (l1 l2 : List LeadRow), l1.map leadKey = l2.map leadKey →
      (l1.find? (fun l => l.email = a)).map leadKey
        = (l2.find? (fun l => l.email = a)).map leadKey := by
  intro l1
  induction l1 with
  | nil =>
    intro l2 h
    rw [List.map_eq_nil_iff.mp h.symm]
  | cons x t ih =>
    intro l2 h
    cases l2 with
    | nil => simp at h
    | cons y t2 =>
      simp only [List.map_cons, List.cons.injEq] at h
      obtain ⟨hk, ht⟩ := h
      have hemail : x.email = y.email := congrArg Prod.snd hk
      by_cases hp : x.email = a
      · rw [List.find?_cons_of_pos _ (by simp [hp]),
            List.find?_cons_of_pos _ (by simp [← hemail, hp])]
        simp [hk]
      · rw [List.find?_cons_of_neg _ (by simp [hp]),
            List.find?_cons_of_neg _ (by simp [← hemail, hp])]
        exact ih t2 ht

lemma getLeadByEmail_congr (a : String) (db1 db2 : DB)
    (h : db1.leads.map leadKey = db2.leads.map leadKey) :
    (getLeadByEmail a db1).map leadKey = (getLeadByEmail a db2).map leadKey :=
  find?_email_map_leadKey a db1.leads db2.leads h

lemma getLeadByEmail_isSome_congr (a : String) (db1 db2 : DB)
    (h : db1.leads.map leadKey = db2.leads.map leadKey) :
    (getLeadByEmail a db1).isSome = (getLeadByEmail a db2).isSome := by
  have h2 := congrArg Option.isSome (getLeadByEmail_congr a db1 db2 h)
  simpa [Option.isSome_map'] using h2

lemma getEmailByMessageId_mono (mid : String) (db db2 : DB) (es : List EmailRow)
    (he : db2.emails = db.emails ++ es)
    (h : (getEmailByMessageId mid db).isSome = true) :
    (getEmailByMessageId mid db2).isSome = true := by
  rw [getEmailByMessageId, List.find?_isSome] at h ⊢
  obtain ⟨x, hx, hp⟩ := h
  exact ⟨x, by simp [he, hx], hp⟩

/-- Relation between two stores consistent with what one sync pass does:
the lead rows keep their ids and emails (only statuses may differ) and
the email table only grows at the end. -/
def DbStep (db db2 : DB) : Prop :=
  db.leads.map leadKey = db2.leads.map leadKey ∧ ∃ es, db2.emails = db.emails ++ es

lemma dbStep_refl (db : DB) : DbStep db db := ⟨rfl, [], by simp⟩

lemma dbStep_trans {db1 db2 db3 : DB} (h1 : DbStep db1 db2) (h2 : DbStep db2 db3) :
    DbStep db1 db3 := by
  obtain ⟨hk1, e1, he1⟩ := h1
  obtain ⟨hk2, e2, he2⟩ := h2
  exact ⟨hk1.trans hk2, e1 ++ e2, by simp [he2, he1]⟩

lemma processMessage_dbStep (t : Option String) (acc : SyncAcc) (m : InboundMsg) :
    DbStep acc.db (processMessage t acc m).db := by
  cases hf : jsOrNull m.fromAddress with
  | none => simp only [processMessage, hf]; exact dbStep_refl _
  | some a =>
    cases hl : getLeadByEmail a acc.db with
    | none => simp only [processMessage, hf, hl]; exact dbStep_refl _
    | some lead =>
      cases hd : getEmailByMessageId m.id acc.db with
      | some e => simp only [processMessage, hf, hl, hd]; exact dbStep_refl _
      | none =>
        simp only [processMessage, hf, hl, hd]
        refine ⟨?_, [(createEmail acc.db
          { leadId := lead.id,
            subject := jsOr m.subject "(No Subject)",
            body := jsOr m.bodyContent "",
            direction := "received",
            messageId := some m.id,
            conversationId := jsOrNull m.conversationId,
            fromEmail := some a,
            toEmail := t,
            inReplyTo := getInReplyToHeader m }).2], ?_⟩
        · rw [updateLeadStatus_leadKey, createEmail_leads]
        · rw [updateLeadStatus_emails]
          rfl

lemma foldl_dbStep (t : Option String) :
    ∀ (msgs : List InboundMsg) (acc : SyncAcc),
      DbStep acc.db ((msgs.foldl (processMessage t) acc)).db := by
  intro msgs
  induction msgs with
  | nil => intro acc; exact dbStep_refl _
  | cons m rest ih =>
    intro acc
    exact dbStep_trans (processMessage_dbStep t acc m) (ih _)

/-- A message is inert for a store when re-processing it cannot write
anything: whenever its sender is truthy and matches a lead, an Email with
its provider message id is already present. -/
def Inert (db : DB) (m : InboundMsg) : Prop :=
  ∀ a, jsOrNull m.fromAddress = some a → (getLeadByEmail a db).isSome = true →
    (getEmailByMessageId m.id db).isSome = true

lemma inert_mono {db db2 : DB} {m : InboundMsg}
    (h : Inert db m) (st : DbStep db db2) : Inert db2 m := by
  intro a ha hs
  obtain ⟨hk, es, he⟩ := st
  have hs1 : (getLeadByEmail a db).isSome = true := by
    rw [getLeadByEmail_isSome_congr a db db2 hk]; exact hs
  exact getEmailByMessageId_mono m.id db db2 es he (h a ha hs1)

lemma inert_skip (t : Option String) (acc : SyncAcc) (m : InboundMsg)
    (h : Inert acc.db m) :
    (processMessage t acc m).db = acc.db ∧ (processMessage t acc m).saved = acc.saved := by
  cases hf : jsOrNull m.fromAddress with
  | none => simp [processMessage, hf]
  | some a =>
    cases hl : getLeadByEmail a acc.db with
    | none => simp [processMessage, hf, hl]
    | some lead =>
      have hd := h a hf (by rw [hl]; rfl)
      cases hde : getEmailByMessageId m.id acc.db with
      | none => rw [hde] at hd; simp at hd
      | some e => simp [processMessage, hf, hl, hde]

lemma inert_after (t : Option String) (acc : SyncAcc) (m : InboundMsg) :
    Inert (processMessage t acc m).db m := by
  intro a ha hl
  cases hgl : getLeadByEmail a acc.db with
  | none =>
    simp only [processMessage, ha, hgl] at hl
    simp at hl
  | some lead =>
    cases hd : getEmailByMessageId m.id acc.db with
    | some e =>
      simp only [processMessage, ha, hgl, hd]
      rfl
    | none =>
      simp only [processMessage, ha, hgl, hd]
      rw [getEmailByMessageId_updateLeadStatus]
      exact getEmailByMessageId_createEmail _ _ _ rfl

lemma foldl_all_inert (t : Option String) :
    ∀ (msgs : List InboundMsg) (acc : SyncAcc) (m : InboundMsg), m ∈ msgs →
      Inert ((msgs.foldl (processMessage t) acc).db) m := by
  intro msgs
  induction msgs with
  | nil => intro acc m hm; cases hm
  | cons m0 rest ih =>
    intro acc m hm
    simp only [List.foldl_cons]
    rcases List.mem_cons.mp hm with h | h
    · subst h
      exact inert_mono (inert_after t acc m) (foldl_dbStep t rest _)
    · exact ih _ m h

lemma foldl_inert_frame (t : Option String) (db0 : DB) :
    ∀ (msgs : List InboundMsg), (∀ m ∈ msgs, Inert db0 m) →
      ∀ (acc : SyncAcc), acc.db = db0 →
        (msgs.foldl (processMessage t) acc).db = db0 ∧
        (msgs.foldl (processMessage t) acc).saved = acc.saved := by
  intro msgs
  induction msgs with
  | nil => intro _ acc hdb; exact ⟨hdb, rfl⟩
  | cons m rest ih =>
    intro hall acc hdb
    have hm : Inert acc.db m := hdb ▸ hall m (List.mem_cons_self m rest)
    have hs := inert_skip t acc m hm
    simp only [List.foldl_cons]
    have h2 := ih (fun m' hm' => hall m' (List.mem_cons_of_mem m hm'))
      (processMessage t acc m) (hs.1.trans hdb)
    exact ⟨h2.1, h2.2.trans hs.2⟩

/-! ### Concrete fixtures used by witnesses and counterexamples -/

/-- A stored lead used in concrete scenarios. -/
def leadA : LeadRow :=
  { id := "L1", clientName := "Ann", email := "a@b.com", leadDetails := "", status := "New" }

/-- A store holding just `leadA`. -/
def dbA : DB := { leads := [leadA], emails := [] }

/-- An inbound message from `leadA`'s address with provider id `m1`. -/
def msgA : InboundMsg :=
  { id := "m1", conversationId := none, fromAddress := some "a@b.com",
    subject := some "Hi", bodyContent := some "Hello", receivedDateTime := 5,
    internetMessageHeaders := none }

/-- A received Email row already stored for provider message id `m1`. -/
def emailM1 : EmailRow :=
  { id := 0, leadId := "L1", subject := "Hi", body := "Hello",
    direction := "received", messageId := some "m1", conversationId := none,
    fromEmail := some "a@b.com", toEmail := none, inReplyTo := none }

/-- A sync accumulator over a store that already holds `emailM1`. -/
def accA : SyncAcc :=
  { db := { leads := [leadA], emails := [emailM1], nextEmailId := 1 }, matched := 0, saved := 0 }

/-! ### Claim theorems -/

/-- C1: reconciliation is idempotent with respect to the provider message
id.  First conjunct: a message whose id already names a stored Email is
skipped — the store (emails and lead statuses alike) and the saved count
are untouched.  Remaining conjuncts: rerunning the sync pass with the
same window over an unchanged mailbox yields `saved = 0` and leaves the
store — in particular the set of stored Emails — exactly as the first
pass left it. -/
theorem reconcile_idempotent_message_id
    (t : Option String) (db : DB) (clientOk : Bool) (mailbox : Option String)
    (inbox : List InboundMsg) (since : Option Nat) :
    (∀ (acc : SyncAcc) (m : InboundMsg),
        (getEmailByMessageId m.id acc.db).isSome = true →
        (processMessage t acc m).db = acc.db ∧
        (processMessage t acc m).saved = acc.saved) ∧
    (syncEmails t (syncEmails t db clientOk mailbox inbox since).1.db
        clientOk mailbox inbox since).1.saved = 0 ∧
    (syncEmails t (syncEmails t db clientOk mailbox inbox since).1.db
        clientOk mailbox inbox since).1.db
      = (syncEmails t db clientOk mailbox inbox since).1.db := by
  have hall : ∀ m ∈ fetchNewEmails clientOk mailbox inbox since,
      Inert (syncEmails t db clientOk mailbox inbox since).1.db m := by
    intro m hm
    exact foldl_all_inert t (fetchNewEmails clientOk mailbox inbox since) ⟨db, 0, 0⟩ m hm
  have h2 := foldl_inert_frame t ((syncEmails t db clientOk mailbox inbox since).1.db)
    (fetchNewEmails clientOk mailbox inbox since) hall
    ⟨(syncEmails t db clientOk mailbox inbox since).1.db, 0, 0⟩ rfl
  refine ⟨?_, h2.2, h2.1⟩
  intro acc m h
  exact inert_skip t acc m (fun a _ _ => h)

/-- Witness for C1 at a concrete store: the message `m1` is already
stored, so processing it changes neither the store nor the saved
count. -/
theorem reconcile_idempotent_message_id_witness :
    (getEmailByMessageId msgA.id accA.db).isSome = true ∧
    (processMessage none accA msgA).db = accA.db ∧
    (processMessage none accA msgA).saved = accA.saved :=
  ⟨by decide,
   ((reconcile_idempotent_message_id none dbA true (some "me") [msgA] none).1
      accA msgA (by decide)).1,
   ((reconcile_idempotent_message_id none dbA true (some "me") [msgA] none).1
      accA msgA (by decide)).2⟩

/-- An inbox message received at time 1. -/
def msgOld : InboundMsg :=
  { id := "old1", conversationId := none, fromAddress := some "a@b.com",
    subject := some "first", bodyContent := some "x", receivedDateTime := 1,
    internetMessageHeaders := none }

/-- An inbox message received at time 2. -/
def msgNew : InboundMsg :=
  { id := "new2", conversationId := none, fromAddress := some "a@b.com",
    subject := some "second", bodyContent := some "y", receivedDateTime := 2,
    internetMessageHeaders := none }

/-- C2 counterexample: the fetched sequence is not consumed oldest-first.
On a mailbox holding messages received at times 1 and 2, the fetch
returns the time-2 message first, so the processed sequence is not
ascending in received timestamp. -/
theorem fetch_order_not_oldest_first :
    ¬ List.Pairwise (fun x y : InboundMsg => x.receivedDateTime ≤ y.receivedDateTime)
      (fetchNewEmails true (some "me") [msgOld, msgNew] none) := by
  intro hp
  have hfetch : fetchNewEmails true (some "me") [msgOld, msgNew] none = [msgNew, msgOld] := by
    decide
  rw [hfetch] at hp
  have h := (List.pairwise_cons.mp hp).1 msgOld (by simp)
  simp [msgOld, msgNew] at h

/-- C2 (amended): the sync pass consumes the fetched sequence in the
provider's newest-first order — every message processed has a received
timestamp less than or equal to that of every message processed before
it, because `fetchNewEmails` orders by `receivedDateTime desc`. -/
theorem fetch_order_newest_first (clientOk : Bool) (mailbox : Option String)
    (inbox : List InboundMsg) (since : Option Nat) :
    List.Pairwise (fun x y : InboundMsg => y.receivedDateTime ≤ x.receivedDateTime)
      (fetchNewEmails clientOk mailbox inbox since) := by
  have : List.Pairwise recvGE (fetchNewEmails clientOk mailbox inbox since) := by
    unfold fetchNewEmails
    split
    · exact (List.sorted_insertionSort recvGE _).sublist (List.take_sublist _ _)
    · exact List.Pairwise.nil
  exact this

/-- C3 counterexample: with no SendGrid credentials the SendGrid send
does not degrade to a logging no-op success — it returns a failed result
carrying a configuration error, so the claim does not hold for both
provider variants. -/
theorem unconfigured_sendgrid_send_fails :
    (sendEmailViaSendGrid
      { apiKey := "", fromEmail := "", apiResult := .error "never called", now := 0 }).success
        = false ∧
    (sendEmailViaSendGrid
      { apiKey := "", fromEmail := "", apiResult := .error "never called", now := 0 }).error
        = some "SendGrid API key is not configured. Please set SENDGRID_API_KEY in .env file" :=
  ⟨rfl, rfl⟩

/-- C3 (amended): with no credentials, the Microsoft Graph variant's
send succeeds as a logging no-op with no provider message id and its
fetch returns the empty sequence (likewise when only the mailbox address
is missing); the SendGrid variant's send instead returns a failed result
(and that variant has no inbound fetch operation). -/
theorem unconfigured_provider_behaviour (env : GraphEnv) (sg : SgEnv)
    (toA subj body : String) (fromE irt mb : Option String)
    (inbox : List InboundMsg) (since : Option Nat) (ck : Bool)
    (henv : env.clientOk = false) (hsg : sg.apiKey = "") :
    sendEmailMs env toA subj body fromE irt
      = .ok ({ success := true, messageId := none, conversationId := none }, none) ∧
    fetchNewEmails false mb inbox since = [] ∧
    fetchNewEmails ck none inbox since = [] ∧
    (sendEmailViaSendGrid sg).success = false := by
  refine ⟨?_, ?_, ?_, ?_⟩
  · simp [sendEmailMs, henv]
  · simp [fetchNewEmails]
  · simp [fetchNewEmails]
  · simp [sendEmailViaSendGrid, hsg]

/-- Witness for C3 (amended) at a concrete unconfigured environment. -/
theorem unconfigured_provider_behaviour_witness :
    sendEmailMs
        { clientOk := false, fromAddress := none, createReplyOutcome := none,
          sendMailOk := false, sentItemsLatest := none }
        "a@b.com" "s" "b" none none
      = .ok ({ success := true, messageId := none, conversationId := none }, none) ∧
    fetchNewEmails false (some "me") [msgA] none = [] ∧
    fetchNewEmails true none [msgA] none = [] :=
  ⟨(unconfigured_provider_behaviour
      { clientOk := false, fromAddress := none, createReplyOutcome := none,
        sendMailOk := false, sentItemsLatest := none }
      { apiKey := "", fromEmail := "", apiResult := .error "never called", now := 0 }
      "a@b.com" "s" "b" none none (some "me") [msgA] none true rfl rfl).1,
   (unconfigured_provider_behaviour
      { clientOk := false, fromAddress := none, createReplyOutcome := none,
        sendMailOk := false, sentItemsLatest := none }
      { apiKey := "", fromEmail := "", apiResult := .error "never called", now := 0 }
      "a@b.com" "s" "b" none none (some "me") [msgA] none true rfl rfl).2.1,
   (unconfigured_provider_behaviour
      { clientOk := false, fromAddress := none, createReplyOutcome := none,
        sendMailOk := false, sentItemsLatest := none }
      { apiKey := "", fromEmail := "", apiResult := .error "never called", now := 0 }
      "a@b.com" "s" "b" none none (some "me") [msgA] none true rfl rfl).2.2.1⟩

lemma updateLeadStatus_status (i s : String) (db : DB) :
    ∀ l ∈ (updateLeadStatus i s db).leads, l.id = i → l.status = s := by
  intro l hl hid
  simp only [updateLeadStatus, List.mem_map] at hl
  obtain ⟨x, _, hx⟩ := hl
  by_cases h : x.id = i
  · rw [← hx]
    simp [h]
  · exfalso
    rw [← hx] at hid
    simp [h] at hid

/-- C4: when the sync loop persists a new received Email for a matched
message it appends exactly one Email row with direction `received` for
the matched lead and sets that lead's status to `Replied` — whatever the
prior status was, `Closed` included (the hypotheses place no constraint
on `lead.status`); and a skipped duplicate changes the store in no way,
so no status transition happens for it. -/
theorem replied_status_on_new_received
    (t : Option String) (acc : SyncAcc) (m : InboundMsg) (a : String) (lead : LeadRow)
    (hf : jsOrNull m.fromAddress = some a)
    (hl : getLeadByEmail a acc.db = some lead) :
    (getEmailByMessageId m.id acc.db = none →
      (processMessage t acc m).saved = acc.saved + 1 ∧
      (∃ row, (processMessage t acc m).db.emails = acc.db.emails ++ [row] ∧
        row.direction = "received" ∧ row.leadId = lead.id) ∧
      ∀ l ∈ (processMessage t acc m).db.leads, l.id = lead.id → l.status = "Replied") ∧
    (∀ e, getEmailByMessageId m.id acc.db = some e →
      (processMessage t acc m).db = acc.db) := by
  constructor
  · intro hd
    simp only [processMessage, hf, hl, hd]
    refine ⟨by simp, ⟨(createEmail acc.db
        { leadId := lead.id, subject := jsOr m.subject "(No Subject)",
          body := jsOr m.bodyContent "", direction := "received",
          messageId := some m.id, conversationId := jsOrNull m.conversationId,
          fromEmail := some a, toEmail := t,
          inReplyTo := getInReplyToHeader m }).2, ?_, rfl, rfl⟩, ?_⟩
    · rw [updateLeadStatus_emails]
      rfl
    · exact updateLeadStatus_status lead.id "Replied" _
  · intro e hd
    simp only [processMessage, hf, hl, hd]

/-- Witness for C4: a lead whose status is `Closed` gets status `Replied`
when a fresh inbound message from its address is persisted. -/
theorem replied_status_on_new_received_witness :
    (processMessage none
        { db := { leads := [{ leadA with status := "Closed" }], emails := [] },
          matched := 0, saved := 0 } msgA).saved = 0 + 1 ∧
    (∀ l ∈ (processMessage none
        { db := { leads := [{ leadA with status := "Closed" }], emails := [] },
          matched := 0, saved := 0 } msgA).db.leads,
      l.id = leadA.id → l.status = "Replied") :=
  ⟨((replied_status_on_new_received none
      { db := { leads := [{ leadA with status := "Closed" }], emails := [] },
        matched := 0, saved := 0 } msgA "a@b.com" { leadA with status := "Closed" }
      (by decide) (by decide)).1 (by decide)).1,
   ((replied_status_on_new_received none
      { db := { leads := [{ leadA with status := "Closed" }], emails := [] },
        matched := 0, saved := 0 } msgA "a@b.com" { leadA with status := "Closed" }
      (by decide) (by decide)).1 (by decide)).2.2⟩

/-- A configured Graph environment where the provider-native reply path
fails, the plain `sendMail` succeeds, and the sent-items lookup finds the
freshly sent message. -/
def envFallbackA : GraphEnv :=
  { clientOk := true, fromAddress := some "me@x.com", createReplyOutcome := none,
    sendMailOk := true, sentItemsLatest := some ("new1", some "c1") }

/-- Like `envFallbackA`, but the sent-items lookup comes back empty. -/
def envFallbackB : GraphEnv :=
  { clientOk := true, fromAddress := some "me@x.com", createReplyOutcome := none,
    sendMailOk := true, sentItemsLatest := none }

/-- C5 counterexample: in the fallback the `In-Reply-To` header is the
original id wrapped in angle brackets, not the original id itself, and
when the sent-items lookup finds nothing the successful result carries
no provider message id at all. -/
theorem reply_fallback_counterexample :
    (sendEmailMs envFallbackA "a@b.com" "s" "b" none (some "m1")
      = .ok ({ success := true, messageId := some "new1", conversationId := some "c1" },
             some { subject := "s", body := "b", toAddress := "a@b.com",
                    headers := [("In-Reply-To", "<m1>"), ("References", "<m1>")] })) ∧
    "<m1>" ≠ "m1" ∧
    (sendEmailMs envFallbackB "a@b.com" "s" "b" none (some "m1")
      = .ok ({ success := true, messageId := none, conversationId := none },
             some { subject := "s", body := "b", toAddress := "a@b.com",
                    headers := [("In-Reply-To", "<m1>"), ("References", "<m1>")] })) :=
  ⟨rfl, by decide, rfl⟩

/-- C5 (amended): with `inReplyToMessageId` set and the provider-native
reply path failing, the send still returns `success = true` — the
fallback is not a caller-visible error; the result's provider message id
is the id of the newly saved message when the sent-items lookup yields
one (absent otherwise), and the message actually sent carries an
`In-Reply-To` header (and a matching `References` header) equal to the
original message id wrapped in angle brackets. -/
theorem reply_fallback_success (env : GraphEnv) (toA subj body orig : String)
    (fromE : Option String)
    (hc : env.clientOk = true)
    (hf : (fromE.orElse (fun _ => env.fromAddress)).isSome = true)
    (hcr : env.createReplyOutcome = none)
    (hsm : env.sendMailOk = true) :
    sendEmailMs env toA subj body fromE (some orig)
      = .ok ({ success := true,
               messageId := env.sentItemsLatest.map (fun p => p.1),
               conversationId := env.sentItemsLatest.bind (fun p => p.2) },
             some { subject := subj, body := body, toAddress := toA,
                    headers := [("In-Reply-To", "<" ++ orig ++ ">"),
                                ("References", "<" ++ orig ++ ">")] }) := by
  obtain ⟨u, hu⟩ := Option.isSome_iff_exists.mp hf
  cases hs : env.sentItemsLatest with
  | none => simp [sendEmailMs, hc, hu, hcr, postSendMail, hsm, hs]
  | some p =>
    cases p with
    | mk mid cid => simp [sendEmailMs, hc, hu, hcr, postSendMail, hsm, hs]

/-- Witness for C5 (amended) at the concrete fallback environment. -/
theorem reply_fallback_success_witness :
    sendEmailMs envFallbackA "a@b.com" "s" "b" none (some "m1")
      = .ok ({ success := true,
               messageId := envFallbackA.sentItemsLatest.map (fun p => p.1),
               conversationId := envFallbackA.sentItemsLatest.bind (fun p => p.2) },
             some { subject := "s", body := "b", toAddress := "a@b.com",
                    headers := [("In-Reply-To", "<" ++ "m1" ++ ">"),
                                ("References", "<" ++ "m1" ++ ">")] }) :=
  reply_fallback_success envFallbackA "a@b.com" "s" "b" "m1" none rfl rfl rfl rfl

/-- C6: inbound sender-to-lead matching is exact string equality with no
case normalization — a match only ever returns a lead whose stored email
is character-for-character the sender address, and when no stored lead
has exactly the sender address (for instance every lead stores
`X@Y.com` while the sender is `x@y.com`) the lookup finds nothing. -/
theorem lead_match_exact (db : DB) (a : String) :
    (∀ l, getLeadByEmail a db = some l → l.email = a) ∧
    ((∀ l ∈ db.leads, l.email ≠ a) → getLeadByEmail a db = none) := by
  constructor
  · intro l h
    simp only [getLeadByEmail] at h
    have := List.find?_some h
    simpa using this
  · intro h
    simp only [getLeadByEmail]
    rw [List.find?_eq_none]
    intro x hx
    simpa using h x hx

/-- A lead stored with the upper-cased address `X@Y.com`. -/
def leadUpper : LeadRow :=
  { id := "L2", clientName := "Bea", email := "X@Y.com", leadDetails := "", status := "New" }

/-- Witness for C6: a sender `x@y.com` does not match a store whose only
lead has email `X@Y.com`, and a successful match returns the exact
address. -/
theorem lead_match_exact_witness :
    getLeadByEmail "x@y.com" { leads := [leadUpper], emails := [] } = none ∧
    leadA.email = "a@b.com" :=
  ⟨(lead_match_exact { leads := [leadUpper], emails := [] } "x@y.com").2 (by decide),
   (lead_match_exact dbA "a@b.com").1 leadA (by decide)⟩

lemma parseRows_error_of_invalid :
    ∀ rows : List Row, (∃ r ∈ rows, ¬ rowValid r) →
      parseRows rows = .error "Each row must have Client Name and Email columns" := by
  intro rows
  induction rows with
  | nil => rintro ⟨r, hr, _⟩; cases hr
  | cons r rs ih =>
    rintro ⟨r0, hr0, hbad⟩
    by_cases hv : rowValid r
    · rcases List.mem_cons.mp hr0 with h | h
      · subst h; exact absurd hv hbad
      · simp only [parseRows, parseRow, if_pos hv, ih ⟨r0, h, hbad⟩]
    · simp only [parseRows, parseRow, if_neg hv]

lemma parseRows_ok_spec :
    ∀ (rows : List Row) (batch : List InsertLead), parseRows rows = .ok batch →
      batch.length = rows.length ∧ ∀ r ∈ rows, rowValid r := by
  intro rows
  induction rows with
  | nil =>
    intro batch h
    simp only [parseRows, Except.ok.injEq] at h
    subst h
    exact ⟨rfl, by simp⟩
  | cons r rs ih =>
    intro batch h
    by_cases hv : rowValid r
    · simp only [parseRows, parseRow, if_pos hv] at h
      cases hrs : parseRows rs with
      | error e => rw [hrs] at h; cases h
      | ok ls =>
        rw [hrs] at h
        simp only [Except.ok.injEq] at h
        subst h
        obtain ⟨hlen, hall⟩ := ih ls hrs
        refine ⟨by simp [hlen], ?_⟩
        intro r0 hr0
        rcases List.mem_cons.mp hr0 with h | h
        · subst h; exact hv
        · exact hall r0 h
    · simp only [parseRows, parseRow, if_neg hv] at h
      cases h

lemma createLeads_lengths (db : DB) (batch : List InsertLead) :
    (createLeads db batch).1.leads.length = db.leads.length + batch.length ∧
    (createLeads db batch).2.length = batch.length := by
  by_cases h : batch.isEmpty
  · have hb : batch = [] := List.isEmpty_iff.mp h
    subst hb
    simp [createLeads]
  · simp [createLeads, h, List.enum_length]

/-- C7: the lead import is atomic over the batch.  If any row lacks a
truthy client name or email, the whole request is rejected with the
descriptive validation message and the store is returned untouched —
zero Leads created; and whenever the route reports success, every row
validated, the reported count is the batch size, and exactly that many
Leads were appended. -/
theorem import_batch_atomic (db : DB) (rows : List Row) :
    ((∃ r ∈ rows, ¬ rowValid r) →
      (importFileRoute db rows).1 = db ∧
      (importFileRoute db rows).2
        = .badRequest "Each row must have Client Name and Email columns") ∧
    (∀ (db2 : DB) (n : Nat), importFileRoute db rows = (db2, .ok n) →
      (∀ r ∈ rows, rowValid r) ∧ n = rows.length ∧
      db2.leads.length = db.leads.length + rows.length) := by
  constructor
  · intro hex
    have he := parseRows_error_of_invalid rows hex
    constructor <;> simp [importFileRoute, he]
  · intro db2 n h
    cases hp : parseRows rows with
    | error e =>
      rw [importFileRoute, hp] at h
      simp at h
    | ok batch =>
      rw [importFileRoute, hp] at h
      simp only [Prod.mk.injEq] at h
      obtain ⟨hdb, hresp⟩ := h
      obtain ⟨hlen, hall⟩ := parseRows_ok_spec rows batch hp
      obtain ⟨hl1, hl2⟩ := createLeads_lengths db batch
      have hn : n = batch.length := by
        have := hresp
        simp only [ImportResp.ok.injEq] at this
        rw [← this, hl2]
      exact ⟨hall, by rw [hn, hlen], by rw [← hdb, hl1, hlen]⟩

lemma parseRows_ok_of_valid :
    ∀ rows : List Row, (∀ r ∈ rows, rowValid r) →
      ∃ batch, parseRows rows = .ok batch := by
  intro rows
  induction rows with
  | nil => intro _; exact ⟨[], rfl⟩
  | cons r rs ih =>
    intro hall
    obtain ⟨batch, hb⟩ := ih (fun r0 h0 => hall r0 (List.mem_cons_of_mem r h0))
    have hv : rowValid r := hall r (List.mem_cons_self r rs)
    refine ⟨{ clientName := (jsOr r.clientName "").trim,
              email := (jsOr r.email "").trim,
              leadDetails := (jsOr r.leadDetails "").trim,
              status := "New" } :: batch, ?_⟩
    simp only [parseRows, parseRow, if_pos hv, hb]

/-- A spreadsheet row missing its email column. -/
def rowNoEmail : Row := { clientName := some "Carl", email := none, leadDetails := none }

/-- A fully populated spreadsheet row. -/
def rowGood : Row := { clientName := some "Dana", email := some "d@e.com", leadDetails := some "x" }

/-- Witness for C7: a batch with one good row and one row missing the
email is rejected wholesale — the store comes back unchanged with the
validation message — while the all-valid batch imports both rows. -/
theorem import_batch_atomic_witness :
    ((importFileRoute dbA [rowGood, rowNoEmail]).1 = dbA ∧
     (importFileRoute dbA [rowGood, rowNoEmail]).2
       = .badRequest "Each row must have Client Name and Email columns") ∧
    (importFileRoute dbA [rowGood, rowGood]).1.leads.length = dbA.leads.length + 2 :=
  ⟨(import_batch_atomic dbA [rowGood, rowNoEmail]).1
      ⟨rowNoEmail, by decide, by decide⟩,
   by
    obtain ⟨batch, hb⟩ := parseRows_ok_of_valid [rowGood, rowGood] (by decide)
    have heq : importFileRoute dbA [rowGood, rowGood]
        = ((createLeads dbA batch).1, .ok (createLeads dbA batch).2.length) := by
      rw [importFileRoute, hb]
    have h := (import_batch_atomic dbA [rowGood, rowGood]).2
      (createLeads dbA batch).1 (createLeads dbA batch).2.length heq
    have h1 : (importFileRoute dbA [rowGood, rowGood]).1 = (createLeads dbA batch).1 :=
      congrArg Prod.fst heq
    rw [h1]
    exact h.2.2⟩

/-- C8 counterexample: with an existing lead and non-empty subject and
body, a failing adapter send makes the endpoint answer with a server
error and persist nothing — no Email row and no status transition — so
the claim does not hold for every such request. -/
theorem send_email_failure_no_persist :
    (sendEmailRoute dbA "L1" "s" "b" "microsoft" (.error "Failed to send email: boom") none).1
      = dbA ∧
    (sendEmailRoute dbA "L1" "s" "b" "microsoft" (.error "Failed to send email: boom") none).2
      = .serverError "Failed to send email: boom" :=
  ⟨rfl, rfl⟩

/-- C8 (amended): for every existing lead and request with non-empty
subject and body, the endpoint invokes the configured adapter's send
and, when that send does not fail (a thrown error, or on the SendGrid
path a failed result, instead yields a 500 with nothing persisted),
appends exactly one Email with direction `sent` addressed to the lead,
sets the lead's status to `Contacted`, and responds with the created
Email together with the provider that handled the send. -/
theorem send_email_success_path (db : DB) (leadId subj body provider : String)
    (r : AdapterResult) (senderAddr : Option String) (lead : LeadRow)
    (hlead : getLead leadId db = some lead)
    (hs : subj ≠ "") (hb : body ≠ "")
    (hok : provider = "sendgrid" → r.success = true) :
    ∃ row,
      (sendEmailRoute db leadId subj body provider (.ok r) senderAddr).1.emails
          = db.emails ++ [row] ∧
      row.direction = "sent" ∧ row.leadId = lead.id ∧ row.toEmail = some lead.email ∧
      (sendEmailRoute db leadId subj body provider (.ok r) senderAddr).2
          = .ok row provider ∧
      ∀ l ∈ (sendEmailRoute db leadId subj body provider (.ok r) senderAddr).1.leads,
        l.id = lead.id → l.status = "Contacted" := by
  have hcond : ¬(provider = "sendgrid" ∧ ¬r.success = true) := by
    rintro ⟨hp, hr⟩
    exact hr (hok hp)
  have htr : (jsTruthy (some subj) ∧ jsTruthy (some body)) := by
    simp [jsTruthy, hs, hb]
  simp only [sendEmailRoute, hlead, if_neg (not_not_intro htr), if_neg hcond]
  refine ⟨(createEmail db
      { leadId := lead.id, subject := subj, body := body, direction := "sent",
        messageId := jsOrNull r.messageId, conversationId := jsOrNull r.conversationId,
        fromEmail := senderAddr, toEmail := some lead.email, inReplyTo := none }).2,
    ?_, rfl, rfl, rfl, rfl, ?_⟩
  · rw [updateLeadStatus_emails]
    rfl
  · exact updateLeadStatus_status lead.id "Contacted" _

/-- Witness for C8 (amended) at a concrete successful SendGrid send. -/
theorem send_email_success_path_witness :
    ∃ row,
      (sendEmailRoute dbA "L1" "Hello" "World" "sendgrid"
          (.ok { success := true, messageId := some "sg1", conversationId := none })
          (some "me@x.com")).1.emails
        = dbA.emails ++ [row] ∧
      row.direction = "sent" ∧ row.leadId = leadA.id ∧ row.toEmail = some leadA.email ∧
      (sendEmailRoute dbA "L1" "Hello" "World" "sendgrid"
          (.ok { success := true, messageId := some "sg1", conversationId := none })
          (some "me@x.com")).2
        = .ok row "sendgrid" ∧
      ∀ l ∈ (sendEmailRoute dbA "L1" "Hello" "World" "sendgrid"
          (.ok { success := true, messageId := some "sg1", conversationId := none })
          (some "me@x.com")).1.leads,
        l.id = leadA.id → l.status = "Contacted" :=
  send_email_success_path dbA "L1" "Hello" "World" "sendgrid"
    { success := true, messageId := some "sg1", conversationId := none }
    (some "me@x.com") leadA (by decide) (by decide) (by decide)
    (fun _ => rfl)

/-- C9: an inbound message whose truthy sender address matches no stored
lead leaves the sync accumulator — store, matched count and saved count —
completely untouched, and `checked` counts every fetched message
regardless of matching. -/
theorem unmatched_sender_no_mutation
    (t : Option String) (acc : SyncAcc) (m : InboundMsg) (a : String)
    (hf : jsOrNull m.fromAddress = some a)
    (hl : getLeadByEmail a acc.db = none) :
    processMessage t acc m = acc ∧
    ∀ (db : DB) (clientOk : Bool) (mailbox : Option String)
      (inbox : List InboundMsg) (since : Option Nat),
      (syncEmails t db clientOk mailbox inbox since).2
        = (fetchNewEmails clientOk mailbox inbox since).length := by
  constructor
  · simp [processMessage, hf, hl]
  · intro db ck mb inbox s
    rfl

/-- Witness for C9: a message from `unknown@nowhere.com` against a store
that only knows `a@b.com` changes nothing. -/
theorem unmatched_sender_no_mutation_witness :
    processMessage none { db := dbA, matched := 0, saved := 0 }
        { msgA with id := "mu", fromAddress := some "unknown@nowhere.com" }
      = { db := dbA, matched := 0, saved := 0 } :=
  (unmatched_sender_no_mutation none { db := dbA, matched := 0, saved := 0 }
    { msgA with id := "mu", fromAddress := some "unknown@nowhere.com" }
    "unknown@nowhere.com" (by decide) (by decide)).1

/-! ### Helper lemmas about the client notification store -/

lemma sumCounts_nonneg : ∀ rec : List (String × Nat), 0 ≤ sumCounts rec := by
  intro rec
  induction rec with
  | nil => simp [sumCounts]
  | cons p ps ih =>
    simp only [sumCounts, List.map_cons, List.sum_cons] at ih ⊢
    positivity

lemma getCount_cons_pos (l : String) (q : String × Nat) (qs : List (String × Nat))
    (h : q.1 = l) : getCount l (q :: qs) = q.2 := by
  unfold getCount
  rw [List.find?_cons_of_pos qs (by simp [h])]

lemma getCount_cons_neg (l : String) (q : String × Nat) (qs : List (String × Nat))
    (h : ¬q.1 = l) : getCount l (q :: qs) = getCount l qs := by
  unfold getCount
  rw [List.find?_cons_of_neg qs (by simp [h])]

lemma sumCounts_cons (q : String × Nat) (qs : List (String × Nat)) :
    sumCounts (q :: qs) = (q.2 : Int) + sumCounts qs := by
  simp [sumCounts]

lemma getCount_le_sum (l : String) :
    ∀ rec : List (String × Nat), (getCount l rec : Int) ≤ sumCounts rec := by
  intro rec
  induction rec with
  | nil => simp [getCount, sumCounts]
  | cons p ps ih =>
    rw [sumCounts_cons]
    by_cases h : p.1 = l
    · rw [getCount_cons_pos l p ps h]
      have h0 := sumCounts_nonneg ps
      omega
    · rw [getCount_cons_neg l p ps h]
      omega

lemma setCount_sum (l : String) :
    ∀ rec : List (String × Nat),
      sumCounts (setCount l (getCount l rec + 1) rec) = sumCounts rec + 1 := by
  intro rec
  induction rec with
  | nil => simp [setCount, sumCounts, getCount]
  | cons p ps ih =>
    by_cases h : p.1 = l
    · rw [getCount_cons_pos l p ps h]
      have hs : setCount l (p.2 + 1) (p :: ps) = (l, p.2 + 1) :: ps := by
        simp [setCount, h]
      rw [hs, sumCounts_cons, sumCounts_cons]
      push_cast
      ring
    · rw [getCount_cons_neg l p ps h]
      have hs : setCount l (getCount l ps + 1) (p :: ps)
          = p :: setCount l (getCount l ps + 1) ps := by
        simp [setCount, h]
      rw [hs, sumCounts_cons, sumCounts_cons, ih]
      ring

lemma setCount_mem (l : String) (v : Nat) :
    ∀ rec : List (String × Nat), ∀ p ∈ setCount l v rec, p = (l, v) ∨ p ∈ rec := by
  intro rec
  induction rec with
  | nil =>
    intro p hp
    simp [setCount] at hp
    exact Or.inl hp
  | cons q qs ih =>
    intro p hp
    by_cases h : q.1 = l
    · simp only [setCount, if_pos h] at hp
      rcases List.mem_cons.mp hp with h1 | h1
      · exact Or.inl h1
      · exact Or.inr (List.mem_cons_of_mem q h1)
    · simp only [setCount, if_neg h] at hp
      rcases List.mem_cons.mp hp with h1 | h1
      · exact Or.inr (h1 ▸ List.mem_cons_self q qs)
      · rcases ih p h1 with h2 | h2
        · exact Or.inl h2
        · exact Or.inr (List.mem_cons_of_mem q h2)

lemma setCount_keys (l : String) (v : Nat) :
    ∀ rec : List (String × Nat),
      (setCount l v rec).map Prod.fst
        = if l ∈ rec.map Prod.fst then rec.map Prod.fst
          else rec.map Prod.fst ++ [l] := by
  intro rec
  induction rec with
  | nil => simp [setCount]
  | cons q qs ih =>
    by_cases h : q.1 = l
    · simp [setCount, if_pos h, h]
    · simp only [setCount, if_neg h, List.map_cons, ih, List.mem_cons]
      by_cases hm : l ∈ qs.map Prod.fst
      · simp [hm]
      · have hne : ¬l = q.1 := fun h1 => h h1.symm
        simp [hm, hne]

lemma deleteCount_id_of_not_mem (l : String) :
    ∀ rec : List (String × Nat), l ∉ rec.map Prod.fst → deleteCount l rec = rec := by
  intro rec h
  rw [deleteCount, List.filter_eq_self]
  intro p hp
  simp only [decide_eq_true_eq]
  intro hpl
  exact h (hpl ▸ List.mem_map_of_mem Prod.fst hp)

lemma deleteCount_sum (l : String) :
    ∀ rec : List (String × Nat), (rec.map Prod.fst).Nodup →
      sumCounts (deleteCount l rec) = sumCounts rec - (getCount l rec : Int) := by
  intro rec
  induction rec with
  | nil => simp [deleteCount, sumCounts, getCount]
  | cons q qs ih =>
    intro hnd
    simp only [List.map_cons, List.nodup_cons] at hnd
    obtain ⟨hq, hnd2⟩ := hnd
    by_cases h : q.1 = l
    · have hdel : deleteCount l (q :: qs) = deleteCount l qs := by
        simp [deleteCount, List.filter_cons, h]
      have hqs : deleteCount l qs = qs :=
        deleteCount_id_of_not_mem l qs (h ▸ hq)
      rw [hdel, hqs, getCount_cons_pos l q qs h, sumCounts_cons]
      ring
    · have hdel : deleteCount l (q :: qs) = q :: deleteCount l qs := by
        simp [deleteCount, List.filter_cons, h]
      rw [hdel, getCount_cons_neg l q qs h, sumCounts_cons, sumCounts_cons, ih hnd2]
      ring

lemma deleteCount_subset (l : String) (rec : List (String × Nat)) :
    ∀ p ∈ deleteCount l rec, p ∈ rec := by
  intro p hp
  exact List.mem_of_mem_filter hp

lemma deleteCount_keys_sublist (l : String) (rec : List (String × Nat)) :
    List.Sublist ((deleteCount l rec).map Prod.fst) (rec.map Prod.fst) :=
  List.Sublist.map Prod.fst (List.filter_sublist rec)

lemma getCount_pos_of_mem_keys (l : String) :
    ∀ rec : List (String × Nat), (∀ p ∈ rec, 0 < p.2) →
      l ∈ rec.map Prod.fst → 0 < getCount l rec := by
  intro rec
  induction rec with
  | nil => intro _ h; simp at h
  | cons q qs ih =>
    intro hpos hmem
    by_cases h : q.1 = l
    · rw [getCount_cons_pos l q qs h]
      exact hpos q (List.mem_cons_self q qs)
    · rw [getCount_cons_neg l q qs h]
      refine ih (fun p hp => hpos p (List.mem_cons_of_mem q hp)) ?_
      simp only [List.map_cons, List.mem_cons] at hmem
      rcases hmem with h1 | h1
      · exact absurd h1.symm h
      · exact h1

lemma getCount_zero_of_not_mem (l : String) :
    ∀ rec : List (String × Nat), l ∉ rec.map Prod.fst → getCount l rec = 0 := by
  intro rec
  induction rec with
  | nil => intro _; rfl
  | cons q qs ih =>
    intro h
    simp only [List.map_cons, List.mem_cons] at h
    push_neg at h
    rw [getCount_cons_neg l q qs (fun hc => h.1 hc.symm)]
    exact ih h.2
/-- The invariant of C10: the global total equals the sum of the
per-lead counts, and every stored per-lead count is positive. -/
def NotifInv (s : NotifState) : Prop :=
  s.unreadTotal = sumCounts s.perLeadUnread ∧ ∀ p ∈ s.perLeadUnread, 0 < p.2

/-- The strengthened inductive invariant: additionally the per-lead keys
are pairwise distinct, as they are for a JavaScript object. -/
def NotifInvStrong (s : NotifState) : Prop :=
  NotifInv s ∧ (s.perLeadUnread.map Prod.fst).Nodup

lemma notifInvStrong_increment (l : String) (s : NotifState)
    (h : NotifInvStrong s) : NotifInvStrong (increment l s) := by
  obtain ⟨⟨hsum, hpos⟩, hnd⟩ := h
  refine ⟨⟨?_, ?_⟩, ?_⟩
  · simp only [increment]
    rw [setCount_sum, ← hsum]
  · intro p hp
    rcases setCount_mem l (getCount l s.perLeadUnread + 1) s.perLeadUnread p hp with h1 | h1
    · subst h1; simp
    · exact hpos p h1
  · simp only [increment]
    rw [setCount_keys]
    split
    · exact hnd
    · next hmem =>
      refine List.Nodup.append hnd (List.nodup_singleton l) ?_
      intro a ha hb
      rw [List.mem_singleton] at hb
      subst hb
      exact hmem ha

lemma notifInvStrong_clearLead (l : String) (s : NotifState)
    (h : NotifInvStrong s) : NotifInvStrong (clearLead l s) := by
  obtain ⟨⟨hsum, hpos⟩, hnd⟩ := h
  refine ⟨⟨?_, ?_⟩, ?_⟩
  · by_cases hm : l ∈ s.perLeadUnread.map Prod.fst
    · have hc : 0 < getCount l s.perLeadUnread :=
        getCount_pos_of_mem_keys l s.perLeadUnread hpos hm
      have hle : (getCount l s.perLeadUnread : Int) ≤ sumCounts s.perLeadUnread :=
        getCount_le_sum l s.perLeadUnread
      simp only [clearLead, if_pos hc]
      rw [deleteCount_sum l s.perLeadUnread hnd, ← hsum]
      omega
    · have hc : getCount l s.perLeadUnread = 0 :=
        getCount_zero_of_not_mem l s.perLeadUnread hm
      simp only [clearLead, hc]
      rw [deleteCount_id_of_not_mem l s.perLeadUnread hm, ← hsum]
      simp
  · intro p hp
    exact hpos p (deleteCount_subset l s.perLeadUnread p hp)
  · exact hnd.sublist (deleteCount_keys_sublist l s.perLeadUnread)

lemma notifInvStrong_applyOp (s : NotifState) (op : NotifOp)
    (h : NotifInvStrong s) : NotifInvStrong (applyOp s op) := by
  cases op with
  | increment l => exact notifInvStrong_increment l s h
  | clearLead l => exact notifInvStrong_clearLead l s h
  | reset =>
    exact ⟨⟨rfl, by simp [applyOp, reset, notifInit]⟩, by simp [applyOp, reset, notifInit]⟩

lemma notifInvStrong_runOps : ∀ (ops : List NotifOp) (s : NotifState),
    NotifInvStrong s → NotifInvStrong (ops.foldl applyOp s) := by
  intro ops
  induction ops with
  | nil => intro s h; exact h
  | cons op rest ih =>
    intro s h
    exact ih (applyOp s op) (notifInvStrong_applyOp s op h)

/-- C10: from the empty state, every sequence of `increment`,
`clearLead` and `reset` operations keeps the unread-count store in a
state where `unreadTotal` equals the sum of the per-lead unread counts
and every per-lead count present is positive — each operation preserves
the invariant. -/
theorem notification_store_invariant (ops : List NotifOp) :
    (runOps ops).unreadTotal = sumCounts (runOps ops).perLeadUnread ∧
    ∀ p ∈ (runOps ops).perLeadUnread, 0 < p.2 :=
  (notifInvStrong_runOps ops notifInit ⟨⟨rfl, by simp [notifInit]⟩, by simp [notifInit]⟩).1
